import Mathlib

/-!
Shallow embedding of `src/financial_tracker.py`, a small SQLite-backed
personal finance ledger exposed as tool calls.

Modelling decisions, each justified by the source or by the semantics of
the libraries it calls:

* The SQLite database is a `DB` record: the `transactions` table is a list
  in rowid (insertion) order, the `categories` table a list of names in
  insertion order (`SELECT name FROM categories` returns rowid order).
  `nextId` models the AUTOINCREMENT id counter of `transactions`;
  `tablesExist` records whether `CREATE TABLE IF NOT EXISTS` has run.
* REAL amounts are modelled as `ℚ`.  Every finite float is a dyadic
  rational, and all amounts appearing in the spec's test vectors are exact
  in binary floating point, so rational arithmetic agrees with the source
  on them.  For the claims quantifying over non-finite amounts, `PyFloat`
  extends the domain with NaN and the infinities, and
  `add_transaction_float` models the driver's behaviour there: SQLite
  binds NaN as NULL, the NOT NULL constraint on `amount` raises
  `sqlite3.IntegrityError`, and the tool has no try/except around the
  INSERT, so the exception escapes; the infinities bind as themselves.
* `timestamp DATETIME DEFAULT CURRENT_TIMESTAMP` stores a second-precision
  wall-clock string whose lexicographic order is chronological; it is
  modelled as a `Nat` supplied by the caller (the clock) at insert time.
  Two inserts within the same second receive equal timestamps.
* `ORDER BY timestamp DESC` is modelled as a stable sort (insertion sort)
  by the relation `tsGE`: rows with equal timestamps come out in rowid
  scan order, which matches the observed behaviour of SQLite on this
  query plan (full table scan feeding the sorter).
* `GROUP BY category` with no index sorts by the grouping key, so the
  rows of the balance breakdown come out in ascending category order
  (BINARY collation, i.e. byte order; ASCII category names make Lean's
  `String` order coincide with it).
* Python truthiness: `if category:` in `list_transactions` is false both
  for `None` and for the empty string, captured by `truthy`.
* `export_data` only reads the store; its file-system effect is modelled
  by returning the rows that would be serialised (`some rows`) or `none`
  when no file is written.
-/

namespace FinancialTracker

/-- A row of the `transactions` table: id, amount, category, description,
timestamp (all columns, in schema order). -/
structure Txn where
  id : Nat
  amount : ℚ
  category : String
  description : String
  timestamp : Nat
deriving DecidableEq

/-- The persistent state: the two relations plus the id counter of
`transactions` and whether the schema has been created. -/
structure DB where
  transactions : List Txn
  categories : List String
  nextId : Nat
  tablesExist : Bool
deriving DecidableEq

/-- A database file before `initialize_db` has ever run. -/
def emptyDB : DB :=
  { transactions := [], categories := [], nextId := 1, tablesExist := false }

/-- The `default_categories` list of `initialize_db`. -/
def defaultCategories : List String :=
  ["Income", "Food", "Transportation", "Utilities", "Entertainment", "Other"]

/-- One `INSERT OR IGNORE INTO categories` statement: the UNIQUE constraint
on `name` turns the insert into a no-op when the name is present. -/
def insertOrIgnore (cats : List String) (c : String) : List String :=
  if c ∈ cats then cats else cats ++ [c]

/-- The seeding loop of `initialize_db` over `default_categories`. -/
def seedDefaults (cats : List String) : List String :=
  defaultCategories.foldl insertOrIgnore cats

/-- The `initialize_db` function: `CREATE TABLE IF NOT EXISTS` for both
relations, then insert-or-ignore each default category. -/
def initialize_db (db : DB) : DB :=
  { db with categories := seedDefaults db.categories, tablesExist := true }

/-- The `get_categories` helper: `SELECT name FROM categories` in rowid
(insertion) order. -/
def get_categories (db : DB) : List String :=
  db.categories

/-- Floor of a nonnegative rational, via integer division. -/
def qfloorNonneg (q : ℚ) : Nat :=
  q.num.toNat / q.den

/-- Round a nonnegative rational to the nearest integer, ties to even —
the rounding used by Python's fixed-point float formatting. -/
def roundHalfEvenNonneg (q : ℚ) : Nat :=
  let f := qfloorNonneg q
  if q - (f : ℚ) < 1/2 then f
  else if (1 : ℚ)/2 < q - (f : ℚ) then f + 1
  else if f % 2 = 0 then f else f + 1

/-- Left-pad the decimal digits of `n` with zeros to `width` characters. -/
def padFrac (width : Nat) (n : Nat) : String :=
  let s := toString n
  String.mk (List.replicate (width - s.length) '0') ++ s

/-- Python's `"{:.2f}".format(x)`: sign, integer part, dot, exactly two
fractional digits, rounding half to even. -/
def fmt2 (q : ℚ) : String :=
  let cents := roundHalfEvenNonneg (|q| * 100)
  (if q < 0 then "-" else "") ++ toString (cents / 100) ++ "." ++ padFrac 2 (cents % 100)

/-- Length of the decimal expansion of `q` when it terminates (searched up
to 400 digits, enough for any double); dyadic rationals always terminate. -/
def minFracLen (q : ℚ) : Nat :=
  (((List.range 400).find? fun k => (q * (10 : ℚ) ^ k).den == 1).getD 0)

/-- Python's `str()` on a float, modelled for dyadic rationals: the exact
decimal expansion with at least one fractional digit (`str(100.0)` is
`"100.0"`). -/
def floatRepr (q : ℚ) : String :=
  let k := max (minFracLen q) 1
  let scaled := q.num.natAbs * 10 ^ k / q.den
  (if q < 0 then "-" else "") ++ toString (scaled / 10 ^ k) ++ "." ++ padFrac k (scaled % 10 ^ k)

/-- The invalid-category message shared by `add_transaction` and
`list_transactions`: the comma-space join of the category names. -/
def invalidCategoryMsg (cats : List String) : String :=
  "Invalid category. Please use one of: " ++ String.intercalate ", " cats

/-- The `add_transaction` tool: validate the category against
`get_categories`, then `INSERT INTO transactions` (the row receives the
next rowid and `CURRENT_TIMESTAMP`, here the caller-supplied clock `now`)
and echo amount, category and description. -/
def add_transaction (now : Nat) (amount : ℚ) (category description : String)
    (db : DB) : String × DB :=
  if category ∉ get_categories db then
    (invalidCategoryMsg (get_categories db), db)
  else
    ("Transaction added: " ++ floatRepr amount ++ " (" ++ category ++ ") - " ++ description,
     { db with
        transactions := db.transactions ++ [⟨db.nextId, amount, category, description, now⟩],
        nextId := db.nextId + 1 })

/-- Ordering relation of `ORDER BY timestamp DESC`: `a` may precede `b`
when `a`'s timestamp is at least `b`'s. -/
def tsGE (a b : Txn) : Prop :=
  b.timestamp ≤ a.timestamp

instance : DecidableRel tsGE :=
  fun a b => inferInstanceAs (Decidable (b.timestamp ≤ a.timestamp))

instance : IsTotal Txn tsGE :=
  ⟨fun a b => Nat.le_total b.timestamp a.timestamp⟩

instance : IsTrans Txn tsGE :=
  ⟨fun _ _ _ hab hbc => Nat.le_trans hbc hab⟩

/-- The `ORDER BY timestamp DESC` clause: a stable descending sort, so rows
with equal timestamps keep their rowid scan order. -/
def sortDesc (ts : List Txn) : List Txn :=
  ts.insertionSort tsGE

/-- Total balance: `SELECT COALESCE(SUM(amount), 0) FROM transactions`. -/
def totalBalance (db : DB) : ℚ :=
  (db.transactions.map Txn.amount).sum

/-- Lexicographic order on character lists by code point — SQLite's BINARY
collation (UTF-8 byte order coincides with code-point order). -/
def lexLE : List Char → List Char → Bool
  | [], _ => true
  | _ :: _, [] => false
  | a :: as, b :: bs =>
    if a.toNat < b.toNat then true
    else if b.toNat < a.toNat then false
    else lexLE as bs

/-- BINARY-collation order on category names, as the `GROUP BY` sorter
compares them. -/
def catLE (a b : String) : Prop :=
  lexLE a.data b.data = true

instance : DecidableRel catLE :=
  fun a b => inferInstanceAs (Decidable (lexLE a.data b.data = true))

/-- The categories appearing in at least one transaction, in the ascending
key order produced by `GROUP BY category`. -/
def categoriesWithTxns (db : DB) : List String :=
  List.insertionSort catLE (db.transactions.map Txn.category).dedup

/-- Per-category sum: the `SUM(amount)` value of one `GROUP BY` row. -/
def categorySum (db : DB) (c : String) : ℚ :=
  ((db.transactions.filter fun t => t.category = c).map Txn.amount).sum

/-- The `get_balance` tool: the no-transactions message when the grouped
mapping is empty, otherwise the total followed by one breakdown line per
category with at least one transaction. -/
def get_balance (db : DB) : String :=
  let cats := categoriesWithTxns db
  if cats.isEmpty then "No transactions recorded yet."
  else
    String.intercalate "\n"
      (("Current balance: $" ++ fmt2 (totalBalance db)) ::
       "\nBreakdown by category:" ::
       cats.map fun c => c ++ ": $" ++ fmt2 (categorySum db c))

/-- One line of `list_transactions` output. -/
def fmtLine (t : Txn) : String :=
  "$" ++ fmt2 t.amount ++ " (" ++ t.category ++ ") - " ++ t.description

/-- Python truthiness of the `category` argument: `if category:` is false
for `None` and for the empty string. -/
def truthy : Option String → Bool
  | none => false
  | some s => !(s == "")

/-- Rendering step shared by both branches of `list_transactions`: the
empty-selection message, or one formatted line per row. -/
def renderTxns (ts : List Txn) (emptyMsg : String) : String :=
  if ts.isEmpty then emptyMsg
  else String.intercalate "\n" (ts.map fmtLine)

/-- The `list_transactions` tool.  With a truthy filter it validates the
category and selects matching rows; otherwise it selects all rows.  Rows
are sorted newest-first; an empty selection yields a message chosen by the
same truthiness test. -/
def list_transactions (category : Option String) (db : DB) : String :=
  if truthy category then
    let c := category.getD ""
    if c ∉ get_categories db then
      invalidCategoryMsg (get_categories db)
    else
      renderTxns (sortDesc (db.transactions.filter fun t => t.category = c))
        "No transactions found."
  else
    renderTxns (sortDesc db.transactions) "No transactions recorded yet."

/-- Code points of the characters Python's `str.strip()` strips — exactly
those with `str.isspace()` true: the ASCII controls 09-0D, the file/group/
record/unit separators 1C-1F, space, NEL (U+0085), NBSP (U+00A0), and the
Unicode space separators (U+1680, U+2000-200A, U+2028, U+2029, U+202F,
U+205F, U+3000). -/
def pySpaceCodes : List Nat :=
  [0x09, 0x0A, 0x0B, 0x0C, 0x0D, 0x1C, 0x1D, 0x1E, 0x1F, 0x20, 0x85, 0xA0,
   0x1680, 0x2000, 0x2001, 0x2002, 0x2003, 0x2004, 0x2005, 0x2006, 0x2007,
   0x2008, 0x2009, 0x200A, 0x2028, 0x2029, 0x202F, 0x205F, 0x3000]

/-- Whitespace as stripped by Python's `str.strip()`. -/
def isPySpace (c : Char) : Bool :=
  pySpaceCodes.contains c.toNat

/-- The test `not name or len(name.strip()) == 0`: true exactly when every
character of `name` is whitespace (vacuously for the empty string). -/
def strippedEmpty (s : String) : Bool :=
  s.data.all isPySpace

/-- The `add_category` tool: reject blank names, then attempt the insert;
the UNIQUE constraint turns a duplicate into an `IntegrityError`, answered
with the already-exists message and no state change. -/
def add_category (name : String) (db : DB) : String × DB :=
  if name = "" ∨ strippedEmpty name then
    ("Category name cannot be empty.", db)
  else if name ∈ db.categories then
    ("Category '" ++ name ++ "' already exists.", db)
  else
    ("Category '" ++ name ++ "' added successfully.",
     { db with categories := db.categories ++ [name] })

/-- Python's `str.lower()`, modelled on the ASCII range (the only case the
`format` check distinguishes). -/
def pyLower (s : String) : String :=
  String.mk (s.data.map Char.toLower)

/-- The `export_data` tool: anything but `"json"` (case-insensitively) is
refused before the store is touched; otherwise the full `transactions`
snapshot, newest first, is serialised.  The second component is the file
content written (`none` when no file is written). -/
def export_data (format : String) (db : DB) : String × Option (List Txn) :=
  if pyLower format ≠ "json" then
    ("Only JSON format is currently supported.", none)
  else
    ("Data exported to transactions_export.json", some (sortDesc db.transactions))

/-- One tool call, with the clock value an `add_transaction` call observes. -/
inductive Op where
  | addTxn (now : Nat) (amount : ℚ) (category description : String)
  | addCat (name : String)
  | listTx (category : Option String)
  | getBal
  | exportData (format : String)

/-- State transition of one tool call; the read-only tools return the
store unchanged, as their SQL is SELECT-only. -/
def applyOp (db : DB) : Op → DB
  | .addTxn now a c d => (add_transaction now a c d db).2
  | .addCat n => (add_category n db).2
  | .listTx _ => db
  | .getBal => db
  | .exportData _ => db

/-- State after a finite sequence of tool calls. -/
def applyOps (db : DB) (ops : List Op) : DB :=
  ops.foldl applyOp db

/-- A name containing at least one non-whitespace character. -/
def nonBlank (s : String) : Bool :=
  s.data.any fun c => !(isPySpace c)

/-- Every category name stored in `db` has a non-whitespace character. -/
def CatsNonBlank (db : DB) : Prop :=
  ∀ c ∈ db.categories, nonBlank c = true

/-- Character-list version of "text starts with pattern". -/
def leadsWith : List Char → List Char → Bool
  | [], _ => true
  | _ :: _, [] => false
  | a :: asl, b :: bs => a == b && leadsWith asl bs

/-- Character-list version of "pattern occurs contiguously in text". -/
def occursIn (pat : List Char) : List Char → Bool
  | [] => leadsWith pat []
  | b :: bs => leadsWith pat (b :: bs) || occursIn pat bs

/-- A Python float as `add_transaction` receives it: a finite double
(every float value is a dyadic rational) or one of the non-finite
values. -/
inductive PyFloat where
  | finite (q : ℚ)
  | nan
  | inf
  | ninf
deriving DecidableEq

/-- Python's `str()` on any float, extending `floatRepr` to the
non-finite values. -/
def floatReprPy : PyFloat → String
  | .finite q => floatRepr q
  | .nan => "nan"
  | .inf => "inf"
  | .ninf => "-inf"

/-- SQLite's binding of a Python float into a REAL column: NaN is stored
as NULL; every other value, the infinities included, is stored as
itself. -/
def bindReal : PyFloat → Option PyFloat
  | .nan => none
  | v => some v

/-- A `transactions` row over the full float amount domain. -/
structure TxnF where
  id : Nat
  amount : PyFloat
  category : String
  description : String
  timestamp : Nat
deriving DecidableEq

/-- The store over the full float amount domain, for the claims that
quantify over non-finite amounts. -/
structure DBF where
  transactions : List TxnF
  categories : List String
  nextId : Nat
deriving DecidableEq

/-- A finite-amount row viewed in the float-amount store. -/
def liftTxn (t : Txn) : TxnF :=
  ⟨t.id, .finite t.amount, t.category, t.description, t.timestamp⟩

/-- A finite-amount store viewed in the float-amount store. -/
def liftDB (db : DB) : DBF :=
  ⟨db.transactions.map liftTxn, db.categories, db.nextId⟩

/-- The `add_transaction` tool over the full float domain.  The category
check comes first, exactly as in the source; the INSERT then binds the
amount, and a NULL bound into the NOT NULL `amount` column makes the
statement raise `sqlite3.IntegrityError`, which the tool does not catch
(`Except.error` models the escaped exception: nothing is inserted and no
message is returned). -/
def add_transaction_float (now : Nat) (amount : PyFloat) (category description : String)
    (db : DBF) : Except String (String × DBF) :=
  if category ∉ db.categories then
    .ok (invalidCategoryMsg db.categories, db)
  else
    match bindReal amount with
    | none =>
        .error "sqlite3.IntegrityError: NOT NULL constraint failed: transactions.amount"
    | some v =>
        .ok ("Transaction added: " ++ floatReprPy amount ++ " (" ++ category ++ ") - "
              ++ description,
            { db with
                transactions :=
                  db.transactions ++ [⟨db.nextId, v, category, description, now⟩],
                nextId := db.nextId + 1 })

/-- The state reached by initializing and then adding the three
transactions of the spec's balance example (clock values 1, 2, 3). -/
def balanceSampleDB : DB :=
  applyOps (initialize_db emptyDB)
    [.addTxn 1 100 "Income" "salary", .addTxn 2 (-20.5) "Food" "lunch",
     .addTxn 3 (-5.25) "Food" "snack"]

/-- The state reached by initializing and adding one Food transaction at
clock value 5. -/
def oneFoodSampleDB : DB :=
  applyOps (initialize_db emptyDB) [.addTxn 5 1 "Food" "old"]

/-- The state reached by initializing and adding two Food transactions in
the same second (equal timestamps). -/
def tieSampleDB : DB :=
  applyOps (initialize_db emptyDB)
    [.addTxn 5 1 "Food" "first", .addTxn 5 2 "Food" "second"]

/-! Behaviour of the category-seeding fold of `initialize_db`. -/

theorem mem_insertOrIgnore {cats : List String} {c x : String} :
    x ∈ insertOrIgnore cats c ↔ x ∈ cats ∨ x = c := by
  unfold insertOrIgnore
  split
  · next h => exact ⟨Or.inl, fun hx => hx.elim id fun he => he ▸ h⟩
  · simp [List.mem_append]

theorem sublist_insertOrIgnore (cats : List String) (c : String) :
    List.Sublist cats (insertOrIgnore cats c) := by
  unfold insertOrIgnore
  split
  · exact List.Sublist.refl _
  · exact List.sublist_append_left _ _

theorem nodup_insertOrIgnore {cats : List String} {c : String} (h : cats.Nodup) :
    (insertOrIgnore cats c).Nodup := by
  unfold insertOrIgnore
  split
  · exact h
  · next hc => simp [List.nodup_append, h, hc]

theorem insertOrIgnore_eq_of_mem {cats : List String} {c : String} (h : c ∈ cats) :
    insertOrIgnore cats c = cats := by
  unfold insertOrIgnore
  exact if_pos h

theorem mem_foldl_insertOrIgnore (ds : List String) :
    ∀ (cats : List String) (x : String),
      x ∈ ds.foldl insertOrIgnore cats ↔ x ∈ cats ∨ x ∈ ds := by
  induction ds with
  | nil => intro cats x; simp
  | cons d ds ih =>
      intro cats x
      rw [List.foldl_cons, ih, mem_insertOrIgnore]
      constructor
      · rintro ((h | rfl) | h)
        · exact Or.inl h
        · exact Or.inr (List.mem_cons_self _ _)
        · exact Or.inr (List.mem_cons_of_mem _ h)
      · rintro (h | h)
        · exact Or.inl (Or.inl h)
        · rcases List.mem_cons.mp h with rfl | h
          · exact Or.inl (Or.inr rfl)
          · exact Or.inr h

theorem sublist_foldl_insertOrIgnore (ds : List String) :
    ∀ cats : List String, List.Sublist cats (ds.foldl insertOrIgnore cats) := by
  induction ds with
  | nil => intro cats; simp
  | cons d ds ih =>
      intro cats
      exact (sublist_insertOrIgnore cats d).trans (ih _)

theorem nodup_foldl_insertOrIgnore (ds : List String) :
    ∀ cats : List String, cats.Nodup → (ds.foldl insertOrIgnore cats).Nodup := by
  induction ds with
  | nil => intro cats h; simpa using h
  | cons d ds ih => intro cats h; exact ih _ (nodup_insertOrIgnore h)

theorem foldl_insertOrIgnore_eq_of_mem (ds : List String) :
    ∀ cats : List String, (∀ d ∈ ds, d ∈ cats) → ds.foldl insertOrIgnore cats = cats := by
  induction ds with
  | nil => intro cats _; rfl
  | cons d ds ih =>
      intro cats h
      rw [List.foldl_cons, insertOrIgnore_eq_of_mem (h d (List.mem_cons_self _ _))]
      exact ih _ fun e he => h e (List.mem_cons_of_mem _ he)

set_option maxHeartbeats 1200000 in
/-- C8: `initialize_db` is idempotent: re-running it changes nothing — the
two relations exist, each of the six default category names is present
exactly once (given the UNIQUE-constraint invariant that the stored names
are distinct), no existing category or transaction is modified or
duplicated, and no call ever fails (the model is a total function). -/
theorem initialize_db_spec (db : DB) (hnd : db.categories.Nodup) :
    initialize_db (initialize_db db) = initialize_db db
    ∧ (initialize_db db).tablesExist = true
    ∧ (∀ d ∈ defaultCategories, (initialize_db db).categories.count d = 1)
    ∧ (initialize_db db).transactions = db.transactions
    ∧ List.Sublist db.categories (initialize_db db).categories
    ∧ (initialize_db db).categories.Nodup := by
  obtain ⟨tx, cats, nid, te⟩ := db
  have hnd2 : (seedDefaults cats).Nodup :=
    nodup_foldl_insertOrIgnore _ _ hnd
  have hmem : ∀ d ∈ defaultCategories, d ∈ seedDefaults cats := fun d hd =>
    (mem_foldl_insertOrIgnore _ _ _).mpr (Or.inr hd)
  have hfix : seedDefaults (seedDefaults cats) = seedDefaults cats :=
    foldl_insertOrIgnore_eq_of_mem _ _ hmem
  refine ⟨?_, rfl, ?_, rfl, ?_, hnd2⟩
  · show (⟨tx, seedDefaults (seedDefaults cats), nid, true⟩ : DB)
        = ⟨tx, seedDefaults cats, nid, true⟩
    rw [hfix]
  · exact fun d hd => List.count_eq_one_of_mem hnd2 (hmem d hd)
  · exact sublist_foldl_insertOrIgnore _ _

/-- Witness for C8 at the fresh database. -/
theorem initialize_db_spec_witness :
    initialize_db (initialize_db emptyDB) = initialize_db emptyDB
    ∧ (initialize_db emptyDB).categories.count "Food" = 1 :=
  ⟨(initialize_db_spec emptyDB (by decide)).1,
   (initialize_db_spec emptyDB (by decide)).2.2.1 "Food" (by decide)⟩

/-- C6: `add_category` never raises: blank names get the fixed rejection
message and no insert; a duplicate (case-sensitive exact match) gets the
already-exists message with the category list exactly unchanged; otherwise
the name is appended and a confirmation returned. -/
theorem add_category_spec (name : String) (db : DB) :
    ((name = "" ∨ strippedEmpty name = true) →
        add_category name db = ("Category name cannot be empty.", db))
    ∧ (¬(name = "" ∨ strippedEmpty name = true) → name ∈ db.categories →
        add_category name db = ("Category '" ++ name ++ "' already exists.", db))
    ∧ (¬(name = "" ∨ strippedEmpty name = true) → name ∉ db.categories →
        add_category name db =
          ("Category '" ++ name ++ "' added successfully.",
            { db with categories := db.categories ++ [name] })) := by
  refine ⟨fun h => ?_, fun h hm => ?_, fun h hm => ?_⟩
  · unfold add_category; rw [if_pos h]
  · unfold add_category; rw [if_neg h, if_pos hm]
  · unfold add_category; rw [if_neg h, if_neg hm]

/-- Witness for C6: an ASCII-whitespace-only name, a no-break-space-only
name (Unicode whitespace, stripped by Python), a seeded duplicate, and a
fresh name, all against the freshly initialized database. -/
theorem add_category_spec_witness :
    add_category "   " (initialize_db emptyDB) =
      ("Category name cannot be empty.", initialize_db emptyDB)
    ∧ add_category "\u00A0" (initialize_db emptyDB) =
        ("Category name cannot be empty.", initialize_db emptyDB)
    ∧ add_category "Food" (initialize_db emptyDB) =
        ("Category 'Food' already exists.", initialize_db emptyDB)
    ∧ add_category "Rent" (initialize_db emptyDB) =
        ("Category 'Rent' added successfully.",
          { initialize_db emptyDB with
              categories := (initialize_db emptyDB).categories ++ ["Rent"] }) :=
  ⟨(add_category_spec "   " _).1 (by decide),
   (add_category_spec "\u00A0" _).1 (by decide),
   (add_category_spec "Food" _).2.1 (by decide) (by decide),
   (add_category_spec "Rent" _).2.2 (by decide) (by decide)⟩

/-- C2 (amended): for every string `c` outside the category set,
`add_transaction` returns the literal invalid-category message and writes
nothing; `list_transactions c` does the same for nonempty `c`, while the
empty string is falsy in Python and is treated as "no filter" instead. -/
theorem invalid_category_rejects (c : String) (db : DB) (h : c ∉ db.categories) :
    (∀ (now : Nat) (a : ℚ) (d : String),
        add_transaction now a c d db = (invalidCategoryMsg db.categories, db))
    ∧ (c ≠ "" → list_transactions (some c) db = invalidCategoryMsg db.categories) := by
  constructor
  · intro now a d
    unfold add_transaction
    unfold get_categories
    rw [if_pos h]
  · intro hc
    have ht : truthy (some c) = true := by simp [truthy, hc]
    simp only [list_transactions, ht, if_true, Option.getD_some]
    unfold get_categories
    rw [if_pos h]

/-- Witness for C2 at a name absent from the seeded category set. -/
theorem invalid_category_rejects_witness :
    add_transaction 7 3 "Rent" "desk" (initialize_db emptyDB)
      = (invalidCategoryMsg (initialize_db emptyDB).categories, initialize_db emptyDB)
    ∧ list_transactions (some "Rent") (initialize_db emptyDB)
      = invalidCategoryMsg (initialize_db emptyDB).categories :=
  ⟨(invalid_category_rejects "Rent" _ (by decide)).1 7 3 "desk",
   (invalid_category_rejects "Rent" _ (by decide)).2 (by decide)⟩

/-- Counterexample to C2 as stated: the empty string is not a category,
yet `list_transactions ""` does not return the invalid-category message —
Python's truthiness sends it down the unfiltered branch. -/
theorem empty_filter_lists_all :
    "" ∉ (initialize_db emptyDB).categories
    ∧ list_transactions (some "") (initialize_db emptyDB) = "No transactions recorded yet."
    ∧ "No transactions recorded yet."
        ≠ invalidCategoryMsg (initialize_db emptyDB).categories := by
  decide

/-- Uniformity of `add_transaction` in the amount over the finite
(rational) domain: the only branch in the function tests the category,
so for every finite amount the row is inserted and the confirmation
returned. -/
theorem add_transaction_ignores_amount (now : Nat) (a : ℚ) (c d : String) (db : DB)
    (h : c ∈ db.categories) :
    add_transaction now a c d db =
      ("Transaction added: " ++ floatRepr a ++ " (" ++ c ++ ") - " ++ d,
       { db with
          transactions := db.transactions ++ [⟨db.nextId, a, c, d, now⟩],
          nextId := db.nextId + 1 }) := by
  unfold add_transaction
  unfold get_categories
  rw [if_neg (not_not_intro h)]

/-- Witness for the finite-domain uniformity at amount zero. -/
theorem add_transaction_ignores_amount_witness :
    add_transaction 9 0 "Other" "nothing" (initialize_db emptyDB) =
      ("Transaction added: " ++ floatRepr 0 ++ " (" ++ "Other" ++ ") - " ++ "nothing",
       { initialize_db emptyDB with
          transactions := (initialize_db emptyDB).transactions ++
            [⟨(initialize_db emptyDB).nextId, 0, "Other", "nothing", 9⟩],
          nextId := (initialize_db emptyDB).nextId + 1 }) :=
  add_transaction_ignores_amount 9 0 "Other" "nothing" _ (by decide)

/-- Correspondence of the two amount models at finite values: on lifted
stores, `add_transaction_float` with a finite amount never raises and
agrees with `add_transaction` in both branches. -/
theorem add_transaction_float_finite_agrees (now : Nat) (q : ℚ) (c d : String) (db : DB) :
    add_transaction_float now (.finite q) c d (liftDB db)
      = .ok ((add_transaction now q c d db).1, liftDB (add_transaction now q c d db).2) := by
  by_cases hm : c ∈ db.categories
  · unfold add_transaction_float add_transaction
    unfold get_categories
    rw [if_neg (not_not_intro (show c ∈ (liftDB db).categories from hm)),
        if_neg (not_not_intro hm)]
    show Except.ok _ = Except.ok _
    simp only [liftDB, liftTxn, List.map_append, List.map_cons, List.map_nil]
    rfl
  · unfold add_transaction_float add_transaction
    unfold get_categories
    rw [if_pos (show c ∉ (liftDB db).categories from hm), if_pos hm]
    rfl

/-- C9 (amended): `add_transaction` itself has no branch that tests the
amount; for every float amount SQLite can bind — all finite values and
both infinities — with a valid category the row is inserted and the
confirmation returned.  NaN alone escapes: the driver binds it as NULL,
the NOT NULL constraint on `amount` fires, and the uncaught
IntegrityError means nothing is inserted and no confirmation is
returned. -/
theorem add_transaction_float_spec (now : Nat) (a : PyFloat) (c d : String) (db : DBF)
    (hc : c ∈ db.categories) :
    (a ≠ PyFloat.nan →
      add_transaction_float now a c d db =
        .ok ("Transaction added: " ++ floatReprPy a ++ " (" ++ c ++ ") - " ++ d,
             { db with
                transactions := db.transactions ++ [⟨db.nextId, a, c, d, now⟩],
                nextId := db.nextId + 1 }))
    ∧ (a = PyFloat.nan →
      add_transaction_float now a c d db
        = .error "sqlite3.IntegrityError: NOT NULL constraint failed: transactions.amount") := by
  constructor
  · intro hnan
    unfold add_transaction_float
    rw [if_neg (not_not_intro hc)]
    cases a with
    | finite q => rfl
    | nan => exact absurd rfl hnan
    | inf => rfl
    | ninf => rfl
  · intro hnan
    subst hnan
    unfold add_transaction_float
    rw [if_neg (not_not_intro hc)]
    rfl

/-- Witness for C9: infinity inserts and returns the confirmation, NaN
raises, both at the freshly initialized store. -/
theorem add_transaction_float_spec_witness :
    add_transaction_float 4 PyFloat.inf "Other" "influx" (liftDB (initialize_db emptyDB))
      = .ok ("Transaction added: " ++ floatReprPy PyFloat.inf ++ " (" ++ "Other" ++ ") - "
              ++ "influx",
            { liftDB (initialize_db emptyDB) with
                transactions := (liftDB (initialize_db emptyDB)).transactions
                  ++ [⟨(liftDB (initialize_db emptyDB)).nextId, PyFloat.inf, "Other",
                       "influx", 4⟩],
                nextId := (liftDB (initialize_db emptyDB)).nextId + 1 })
    ∧ add_transaction_float 4 PyFloat.nan "Other" "broken" (liftDB (initialize_db emptyDB))
        = .error "sqlite3.IntegrityError: NOT NULL constraint failed: transactions.amount" :=
  ⟨(add_transaction_float_spec 4 PyFloat.inf "Other" "influx" _ (by decide)).1 (by decide),
   (add_transaction_float_spec 4 PyFloat.nan "Other" "broken" _ (by decide)).2 rfl⟩

/-- Counterexample to C9 as stated: at NaN with a valid category the call
neither inserts nor returns the confirmation — the INSERT raises, because
SQLite stores NaN as NULL and `amount` is NOT NULL. -/
theorem add_transaction_nan_raises :
    "Food" ∈ (liftDB (initialize_db emptyDB)).categories
    ∧ add_transaction_float 1 PyFloat.nan "Food" "broken" (liftDB (initialize_db emptyDB))
        = .error "sqlite3.IntegrityError: NOT NULL constraint failed: transactions.amount" :=
  ⟨by decide, by rfl⟩

/-- C5 (amended): a valid nonempty category with no matching transaction
yields the fixed message "No transactions found.", which does not name the
category. -/
theorem list_transactions_no_match_fixed_message (c : String) (db : DB)
    (hmem : c ∈ db.categories) (hne : c ≠ "")
    (hnone : ∀ t ∈ db.transactions, t.category ≠ c) :
    list_transactions (some c) db = "No transactions found." := by
  have ht : truthy (some c) = true := by simp [truthy, hne]
  have hfil : db.transactions.filter (fun t => t.category = c) = [] := by
    rw [List.filter_eq_nil_iff]
    intro t ht2
    simp [hnone t ht2]
  simp only [list_transactions, ht, if_true, Option.getD_some]
  unfold get_categories
  rw [if_neg (not_not_intro hmem), hfil]
  rfl

/-- Witness for C5 at a seeded category of the fresh database. -/
theorem list_transactions_no_match_fixed_message_witness :
    list_transactions (some "Entertainment") (initialize_db emptyDB)
      = "No transactions found." :=
  list_transactions_no_match_fixed_message "Entertainment" _ (by decide) (by decide)
    (by decide)

/-- Counterexample to C5 as stated: for the valid category Food with no
matching rows the returned message does not contain the category name. -/
theorem no_match_message_lacks_category :
    "Food" ∈ (initialize_db emptyDB).categories
    ∧ (initialize_db emptyDB).transactions = []
    ∧ list_transactions (some "Food") (initialize_db emptyDB) = "No transactions found."
    ∧ occursIn "Food".data "No transactions found.".data = false := by
  decide

/-- C7: any format whose lowercase form differs from json is refused with
the fixed message and no file content is produced; json (any case) writes
exactly one element per stored row (every column) and returns the
confirmation naming the fixed path; either way the store is unchanged. -/
theorem export_data_spec (format : String) (db : DB) :
    (pyLower format ≠ "json" →
        export_data format db = ("Only JSON format is currently supported.", none))
    ∧ (pyLower format = "json" →
        export_data format db
          = ("Data exported to transactions_export.json", some (sortDesc db.transactions))
        ∧ List.Perm (sortDesc db.transactions) db.transactions)
    ∧ applyOp db (Op.exportData format) = db := by
  refine ⟨fun h => ?_, fun h => ⟨?_, ?_⟩, rfl⟩
  · unfold export_data
    rw [if_pos h]
  · unfold export_data
    rw [if_neg (not_not_intro h)]
  · exact List.perm_insertionSort _ _

/-- Witness for C7: a refused format and an accepted upper-case one. -/
theorem export_data_spec_witness :
    export_data "xml" balanceSampleDB = ("Only JSON format is currently supported.", none)
    ∧ export_data "JSON" balanceSampleDB
        = ("Data exported to transactions_export.json",
           some (sortDesc balanceSampleDB.transactions)) :=
  ⟨(export_data_spec "xml" _).1 (by decide),
   ((export_data_spec "JSON" _).2.1 (by decide)).1⟩

unseal Rat.add Rat.mul Rat.sub Rat.inv Rat.ofScientific in
/-- C3: `get_balance` on an empty store is exactly the no-transactions
message; otherwise it is the two-decimal total followed by one line per
category having at least one transaction; on the spec's three-transaction
example the total is 74.25 with exactly the Food and Income lines. -/
theorem get_balance_spec :
    (∀ db : DB, db.transactions = [] → get_balance db = "No transactions recorded yet.")
    ∧ (∀ (db : DB) (c : String),
        c ∈ categoriesWithTxns db ↔ ∃ t ∈ db.transactions, t.category = c)
    ∧ (∀ db : DB, db.transactions ≠ [] →
        get_balance db = String.intercalate "\n"
          (("Current balance: $" ++ fmt2 (totalBalance db)) ::
           "\nBreakdown by category:" ::
           (categoriesWithTxns db).map fun c => c ++ ": $" ++ fmt2 (categorySum db c)))
    ∧ get_balance balanceSampleDB
        = "Current balance: $74.25\n\nBreakdown by category:\nFood: $-25.75\nIncome: $100.00" := by
  refine ⟨?_, ?_, ?_, by decide⟩
  · intro db h
    simp [get_balance, categoriesWithTxns, h]
  · intro db c
    simp [categoriesWithTxns, List.mem_insertionSort, List.mem_dedup, List.mem_map]
  · intro db h
    have h3 : categoriesWithTxns db ≠ [] := by
      intro he
      have hper := List.perm_insertionSort catLE ((db.transactions.map Txn.category).dedup)
      rw [categoriesWithTxns] at he
      rw [he] at hper
      have hd := hper.symm.eq_nil
      rw [List.dedup_eq_nil] at hd
      exact h (by simpa using hd)
    have h4 : (categoriesWithTxns db).isEmpty = false := by
      cases hcw : categoriesWithTxns db with
      | nil => exact absurd hcw h3
      | cons a l => rfl
    simp only [get_balance]
    rw [if_neg (by simp [h4])]

/-- Witness for C3 at the freshly initialized (empty) store. -/
theorem get_balance_spec_witness :
    get_balance (initialize_db emptyDB) = "No transactions recorded yet." :=
  get_balance_spec.1 (initialize_db emptyDB) (by decide)

/-- Categories are untouched by `add_transaction`, in both branches. -/
theorem add_transaction_categories_eq (now : Nat) (a : ℚ) (c d : String) (db : DB) :
    (add_transaction now a c d db).2.categories = db.categories := by
  unfold add_transaction
  split <;> rfl

/-- Being non-blank is the complement of being all-whitespace. -/
theorem nonBlank_eq_not_strippedEmpty (s : String) :
    nonBlank s = !(strippedEmpty s) := by
  unfold nonBlank strippedEmpty
  rw [List.all_eq_not_any_not, Bool.not_not]

/-- A name `add_category` accepts is non-blank. -/
theorem nonBlank_of_accepted {name : String}
    (h : ¬(name = "" ∨ strippedEmpty name = true)) : nonBlank name = true := by
  rw [nonBlank_eq_not_strippedEmpty]
  cases hb : strippedEmpty name with
  | true => exact absurd (Or.inr hb) h
  | false => rfl

/-- Every tool call preserves the all-categories-non-blank invariant. -/
theorem applyOp_preserves_catsNonBlank (db : DB) (op : Op) (h : CatsNonBlank db) :
    CatsNonBlank (applyOp db op) := by
  cases op with
  | addTxn now a c d =>
      intro x hx
      have hx2 : x ∈ (add_transaction now a c d db).2.categories := hx
      rw [add_transaction_categories_eq] at hx2
      exact h x hx2
  | addCat n =>
      show CatsNonBlank (add_category n db).2
      unfold add_category
      split
      · exact h
      · split
        · exact h
        · next hblank _ =>
            intro x hx
            rcases List.mem_append.mp hx with hx | hx
            · exact h x hx
            · rcases List.mem_singleton.mp hx with rfl
              exact nonBlank_of_accepted hblank
  | listTx c => exact h
  | getBal => exact h
  | exportData f => exact h

/-- The invariant is preserved across any finite call sequence. -/
theorem applyOps_preserves_catsNonBlank (ops : List Op) :
    ∀ db : DB, CatsNonBlank db → CatsNonBlank (applyOps db ops) := by
  induction ops with
  | nil => exact fun db h => h
  | cons op ops ih => exact fun db h => ih _ (applyOp_preserves_catsNonBlank db op h)

/-- C10: starting from the initialized store, after any finite sequence of
tool calls every stored category name contains a non-whitespace character
— the seeds are non-blank, `add_category` rejects blank names, and no
operation edits or deletes a category. -/
theorem categories_never_blank (ops : List Op) (c : String)
    (hc : c ∈ (applyOps (initialize_db emptyDB) ops).categories) :
    nonBlank c = true :=
  applyOps_preserves_catsNonBlank ops (initialize_db emptyDB)
    (show ∀ x ∈ (initialize_db emptyDB).categories, nonBlank x = true by decide) c hc

/-- Witness for C10 after one category insertion. -/
theorem categories_never_blank_witness : nonBlank "Rent" = true :=
  categories_never_blank [Op.addCat "Rent"] "Rent" (by decide)

/-! Facts about the newest-first sort. -/

theorem sortDesc_perm (ts : List Txn) : List.Perm (sortDesc ts) ts :=
  List.perm_insertionSort _ _

theorem sortDesc_sorted (ts : List Txn) : List.Pairwise tsGE (sortDesc ts) :=
  List.sorted_insertionSort _ _

theorem sortDesc_stable {c ts : List Txn} (hp : List.Pairwise tsGE c)
    (hs : List.Sublist c ts) : List.Sublist c (sortDesc ts) :=
  List.sublist_insertionSort hp hs

/-- A row whose timestamp strictly exceeds every other row's comes out
first. -/
theorem sortDesc_append_newest (L : List Txn) (e : Txn)
    (h : ∀ x ∈ L, x.timestamp < e.timestamp) :
    ∃ rest, sortDesc (L ++ [e]) = e :: rest := by
  have hperm := sortDesc_perm (L ++ [e])
  have hsorted := sortDesc_sorted (L ++ [e])
  have he : e ∈ sortDesc (L ++ [e]) := hperm.mem_iff.mpr (by simp)
  cases hs : sortDesc (L ++ [e]) with
  | nil => rw [hs] at he; cases he
  | cons hd tl =>
      rw [hs] at he hsorted hperm
      by_cases hhd : hd = e
      · exact ⟨tl, by rw [hhd]⟩
      · exfalso
        have hetl : e ∈ tl := by
          rcases List.mem_cons.mp he with h1 | h1
          · exact absurd h1.symm hhd
          · exact h1
        have hr : tsGE hd e := (List.pairwise_cons.mp hsorted).1 e hetl
        have hdL : hd ∈ L := by
          have hmm : hd ∈ L ++ [e] := hperm.subset (List.mem_cons_self hd tl)
          rcases List.mem_append.mp hmm with h1 | h1
          · exact h1
          · rcases List.mem_singleton.mp h1 with rfl
            exact absurd rfl hhd
        exact absurd hr (Nat.not_le.mpr (h hd hdL))

theorem renderTxns_cons (t : Txn) (ts : List Txn) (msg : String) :
    renderTxns (t :: ts) msg = String.intercalate "\n" (fmtLine t :: ts.map fmtLine) :=
  rfl

theorem renderTxns_ne_nil {ts : List Txn} (msg : String) (h : ts ≠ []) :
    renderTxns ts msg = String.intercalate "\n" (ts.map fmtLine) := by
  cases ts with
  | nil => exact absurd rfl h
  | cons t ts => rfl

/-- C1 (amended): after `add_transaction` with a valid category and a
timestamp strictly newer than every stored row (clock advanced past the
last insert's second), `list_transactions` on that category starts with
the new record's line; on a timestamp tie the earlier-inserted row stays
first instead. -/
theorem add_transaction_then_list_newest_first (now : Nat) (a : ℚ) (c d : String)
    (db : DB) (hmem : c ∈ db.categories)
    (hnew : ∀ t ∈ db.transactions, t.timestamp < now) :
    ∃ rest : List String,
      list_transactions (some c) (add_transaction now a c d db).2 =
        String.intercalate "\n" (("$" ++ fmt2 a ++ " (" ++ c ++ ") - " ++ d) :: rest) := by
  have h1 : (add_transaction now a c d db).2.transactions
      = db.transactions ++ [⟨db.nextId, a, c, d, now⟩] := by
    unfold add_transaction
    split
    · next hn => exact absurd hmem hn
    · rfl
  have h2 : (add_transaction now a c d db).2.categories = db.categories :=
    add_transaction_categories_eq now a c d db
  by_cases hc : c = ""
  · obtain ⟨rest, hrest⟩ :=
      sortDesc_append_newest db.transactions ⟨db.nextId, a, c, d, now⟩ hnew
    refine ⟨rest.map fmtLine, ?_⟩
    subst hc
    have ht : truthy (some "") = false := rfl
    unfold list_transactions
    rw [ht, if_neg (by simp), h1, hrest, renderTxns_cons]
    rfl
  · obtain ⟨rest, hrest⟩ :=
      sortDesc_append_newest (db.transactions.filter fun t => t.category = c)
        ⟨db.nextId, a, c, d, now⟩
        (fun x hx => hnew x (List.mem_of_mem_filter hx))
    refine ⟨rest.map fmtLine, ?_⟩
    have ht : truthy (some c) = true := by simp [truthy, hc]
    unfold list_transactions
    rw [ht, if_pos rfl]
    simp only [Option.getD_some]
    unfold get_categories
    rw [h2, if_neg (not_not_intro hmem), h1]
    have hfe : ((db.transactions ++ [(⟨db.nextId, a, c, d, now⟩ : Txn)]).filter
          fun t => t.category = c)
        = (db.transactions.filter fun t => t.category = c)
            ++ [(⟨db.nextId, a, c, d, now⟩ : Txn)] := by
      rw [List.filter_append]
      simp
    rw [hfe, hrest, renderTxns_cons]
    rfl

/-- Witness for C1 at a strictly newer clock value. -/
theorem add_transaction_then_list_newest_first_witness :
    ∃ rest : List String,
      list_transactions (some "Food") (add_transaction 10 2 "Food" "new" oneFoodSampleDB).2 =
        String.intercalate "\n"
          (("$" ++ fmt2 2 ++ " (" ++ "Food" ++ ") - " ++ "new") :: rest) :=
  add_transaction_then_list_newest_first 10 2 "Food" "new" oneFoodSampleDB (by decide)
    (by decide)

unseal Rat.add Rat.mul Rat.sub Rat.inv Rat.ofScientific in
/-- Counterexample to C1 as stated: when the insert lands in the same
second as the stored row (equal timestamps), the new record is included
but is the last entry, not the first. -/
theorem add_transaction_tie_not_first :
    "Food" ∈ oneFoodSampleDB.categories
    ∧ oneFoodSampleDB.transactions.map Txn.timestamp = [5]
    ∧ list_transactions (some "Food") (add_transaction 5 2 "Food" "new" oneFoodSampleDB).2
        = "$1.00 (Food) - old\n$2.00 (Food) - new"
    ∧ leadsWith "$2.00 (Food) - new".data
        (list_transactions (some "Food")
          (add_transaction 5 2 "Food" "new" oneFoodSampleDB).2).data = false
    ∧ occursIn "$2.00 (Food) - new".data
        (list_transactions (some "Food")
          (add_transaction 5 2 "Food" "new" oneFoodSampleDB).2).data = true := by
  decide

/-- C4 (amended): the listing is ordered by timestamp descending; rows
with equal timestamps keep their insertion order (the earlier-inserted
appears earlier, not later); with strictly increasing timestamps A, B, C
the result sequence is C, B, A. -/
theorem list_transactions_order_spec (db : DB) :
    List.Pairwise tsGE (sortDesc db.transactions)
    ∧ (∀ x y : Txn, x.timestamp = y.timestamp →
        List.Sublist [x, y] db.transactions →
        List.Sublist [x, y] (sortDesc db.transactions))
    ∧ (db.transactions ≠ [] →
        list_transactions none db
          = String.intercalate "\n" ((sortDesc db.transactions).map fmtLine))
    ∧ (∀ tA tB tC : Txn, db.transactions = [tA, tB, tC] →
        tA.timestamp < tB.timestamp → tB.timestamp < tC.timestamp →
        sortDesc db.transactions = [tC, tB, tA]) := by
  refine ⟨sortDesc_sorted _, ?_, ?_, ?_⟩
  · intro x y hts hsub
    exact sortDesc_stable (List.pairwise_pair.mpr (Nat.le_of_eq hts.symm)) hsub
  · intro h
    have hne : sortDesc db.transactions ≠ [] := by
      intro he
      have hper := sortDesc_perm db.transactions
      rw [he] at hper
      exact h hper.symm.eq_nil
    have ht : truthy none = false := rfl
    unfold list_transactions
    rw [ht, if_neg (by simp), renderTxns_ne_nil _ hne]
  · intro tA tB tC heq h1 h2
    have hAB : ¬ tsGE tA tB := Nat.not_le.mpr h1
    have hBC : ¬ tsGE tB tC := Nat.not_le.mpr h2
    have hAC : ¬ tsGE tA tC := Nat.not_le.mpr (h1.trans h2)
    rw [heq]
    unfold sortDesc
    simp [List.insertionSort, List.orderedInsert, hAB, hBC, hAC]

unseal Rat.add Rat.mul Rat.sub Rat.inv Rat.ofScientific in
/-- Witness for C4 on the three-transaction sample (timestamps 1 < 2 < 3). -/
theorem list_transactions_order_spec_witness :
    list_transactions none balanceSampleDB
      = String.intercalate "\n" ((sortDesc balanceSampleDB.transactions).map fmtLine)
    ∧ sortDesc balanceSampleDB.transactions
      = [⟨3, (-5.25 : ℚ), "Food", "snack", 3⟩, ⟨2, (-20.5 : ℚ), "Food", "lunch", 2⟩,
         ⟨1, (100 : ℚ), "Income", "salary", 1⟩] :=
  ⟨(list_transactions_order_spec balanceSampleDB).2.2.1 (by decide),
   (list_transactions_order_spec balanceSampleDB).2.2.2
     ⟨1, 100, "Income", "salary", 1⟩ ⟨2, -20.5, "Food", "lunch", 2⟩
     ⟨3, -5.25, "Food", "snack", 3⟩ (by decide) (by decide) (by decide)⟩

unseal Rat.add Rat.mul Rat.sub Rat.inv Rat.ofScientific in
/-- Counterexample to C4 as stated: two rows inserted in the same second
have equal timestamps, and the earlier-inserted one appears first — the
later-inserted row's line does not lead the output. -/
theorem equal_timestamps_keep_insertion_order :
    tieSampleDB.transactions.map Txn.timestamp = [5, 5]
    ∧ list_transactions none tieSampleDB = "$1.00 (Food) - first\n$2.00 (Food) - second"
    ∧ leadsWith "$2.00 (Food) - second".data
        (list_transactions none tieSampleDB).data = false := by
  decide

end FinancialTracker
